import Mathlib

/-!
Verification of the web3safetykit asynchronous analysis pipeline.

Shallow embedding of the rate-limited request gateway
(src/workers/RequestProcessor.worker.js, src/services/RequestQueueService.js,
src/models/ApiRequest.js), the transaction fetcher
(src/workers/TransactionFetcher.worker.js), the activity risk scorer,
the contract honeypot heuristics (src/workers/contract.worker.js),
the approval intent reconstruction (src/workers/approval.worker.js)
and the failure-absorbing on-chain reads (src/services/blockchain.service.js).
-/

namespace Web3Safety

/-! ## ApiRequest model (src/models/ApiRequest.js and RequestProcessor.worker.js) -/

/-- Status enum of an ApiRequest document. -/
inductive Status
  | pending
  | processing
  | completed
  | failed
deriving DecidableEq, Repr

/-- Shallow state of an ApiRequest document. Times are in milliseconds
since the epoch, as in the JavaScript source. -/
structure ApiRequest where
  status : Status
  attempts : Nat
  retryAt : Option Nat
  error : Option String
  result : Option String
  processingId : Option String
  completedAt : Option Nat
deriving DecidableEq, Repr

/-- MAX_ATTEMPTS = 3 (RequestProcessor.worker.js line 14). -/
def MAX_ATTEMPTS : Nat := 3

/-- The document created by RequestQueueService.add: status pending,
attempts 0 (schema default), retryAt null. -/
def newRequest : ApiRequest :=
  { status := .pending, attempts := 0, retryAt := none, error := none,
    result := none, processingId := none, completedAt := none }

/-- retryAt is null or has come (the or-clause of the findOneAndUpdate filter). -/
def retryDue (retryAt : Option Nat) (now : Nat) : Bool :=
  match retryAt with
  | none => true
  | some t => t ≤ now

/-- The atomic claim (RequestProcessor.worker.js lines 53-64): select a
pending request whose retry time has come, set status processing, stamp
the worker id and increment attempts. Returns none when the request does
not match the filter. -/
def claimRequest (r : ApiRequest) (workerId : String) (now : Nat) : Option ApiRequest :=
  if r.status = Status.pending ∧ retryDue r.retryAt now = true then
    some { r with status := .processing, processingId := some workerId,
                  attempts := r.attempts + 1 }
  else
    none

/-- The value handed to RequestQueueService.resolve for the waiting caller. -/
structure Resolution where
  result : Option String
  error : Option String
deriving DecidableEq, Repr

/-- Outcome update of a processed request (RequestProcessor.worker.js
lines 127-147). On an error with attempts < MAX_ATTEMPTS the request is
re-queued as pending with retryAt = now + 2 ^ attempts seconds (the code
computes the delay in milliseconds) and the caller is not resolved yet.
Otherwise the request is finalized completed or failed, completedAt is
stamped and the caller is resolved. Returns the updated request and the
resolution delivered (none when re-queued). -/
def finishRequest (r : ApiRequest) (result : Option String) (error : Option String)
    (now : Nat) : ApiRequest × Option Resolution :=
  if error.isSome ∧ r.attempts < MAX_ATTEMPTS then
    ({ r with status := .pending,
              error := some ("Attempt " ++ toString r.attempts ++ " failed: "
                              ++ error.getD ""),
              processingId := none,
              retryAt := some (now + 2 ^ r.attempts * 1000) }, none)
  else
    ({ r with status := if error.isSome then .failed else .completed,
              result := result,
              error := error,
              processingId := none,
              completedAt := some now },
     some { result := result, error := error })

/-- One transition of an ApiRequest document performed by the processor:
either the atomic claim, or the outcome update of a request being
processed. -/
inductive Step : ApiRequest → Nat → ApiRequest → Prop
  | claim {r r' : ApiRequest} {now : Nat} (workerId : String) :
      claimRequest r workerId now = some r' → Step r now r'
  | finish {r : ApiRequest} {now : Nat} (result error : Option String) :
      r.status = Status.processing →
      Step r now (finishRequest r result error now).1

/-- States of an ApiRequest reachable from its creation. -/
inductive Reachable : ApiRequest → Prop
  | init : Reachable newRequest
  | step {r r' : ApiRequest} (now : Nat) :
      Reachable r → Step r now r' → Reachable r'

/-- Attempt-count invariant maintained by the processor. -/
def attemptsInv (r : ApiRequest) : Prop :=
  (r.status = Status.pending → r.attempts < MAX_ATTEMPTS)
  ∧ (r.status = Status.processing → r.attempts ≤ MAX_ATTEMPTS)
  ∧ (r.status = Status.failed → r.attempts = MAX_ATTEMPTS)

theorem attemptsInv_init : attemptsInv newRequest := by
  refine ⟨fun _ => ?_, fun h => ?_, fun h => ?_⟩
  · decide
  · simp [newRequest] at h
  · simp [newRequest] at h

theorem attemptsInv_step {r r' : ApiRequest} {now : Nat}
    (hinv : attemptsInv r) (hstep : Step r now r') : attemptsInv r' := by
  obtain ⟨hp, hq, hf⟩ := hinv
  cases hstep with
  | claim w hclaim =>
    unfold claimRequest at hclaim
    split at hclaim
    · rename_i hcond
      obtain ⟨hpend, _⟩ := hcond
      cases hclaim
      have hlt : r.attempts < MAX_ATTEMPTS := hp hpend
      refine ⟨fun h => ?_, fun _ => ?_, fun h => ?_⟩
      · simp at h
      · show r.attempts + 1 ≤ MAX_ATTEMPTS
        omega
      · simp at h
    · cases hclaim
  | finish res err hproc =>
    have hle : r.attempts ≤ MAX_ATTEMPTS := hq hproc
    unfold finishRequest
    split
    · rename_i hcond
      refine ⟨fun _ => ?_, fun h => ?_, fun h => ?_⟩
      · exact hcond.2
      · simp at h
      · simp at h
    · rename_i hcond
      refine ⟨fun h => ?_, fun h => ?_, fun h => ?_⟩
      · by_cases herr : err.isSome
        · simp [herr] at h
        · simp [herr] at h
      · by_cases herr : err.isSome
        · simp [herr] at h
        · simp [herr] at h
      · by_cases herr : err.isSome
        · simp [herr] at hcond
          show r.attempts = MAX_ATTEMPTS
          omega
        · simp [herr] at h

theorem attemptsInv_reachable {r : ApiRequest} (h : Reachable r) : attemptsInv r := by
  induction h with
  | init => exact attemptsInv_init
  | step now _ hstep ih => exact attemptsInv_step ih hstep

/-- Claim C1: a processing request transitions back to pending only when
attempts < MAX_ATTEMPTS, and then with retryAt = now + 2 ^ attempts
seconds (stored in milliseconds); every request finalized failed has
attempts = MAX_ATTEMPTS; failed is terminal (no transition applies). -/
theorem apiRequest_requeue_gate_and_failed_terminal
    (r r' : ApiRequest) (now : Nat) (hr : Reachable r) :
    (Step r now r' → r.status = Status.processing → r'.status = Status.pending →
       r.attempts < MAX_ATTEMPTS ∧ r'.retryAt = some (now + 2 ^ r.attempts * 1000))
    ∧ (r.status = Status.failed → r.attempts = MAX_ATTEMPTS)
    ∧ (r.status = Status.failed → ¬ Step r now r') := by
  have hinv := attemptsInv_reachable hr
  refine ⟨?_, hinv.2.2, ?_⟩
  · intro hstep hproc hpend
    cases hstep with
    | claim w hclaim =>
      unfold claimRequest at hclaim
      split at hclaim
      · rename_i hcond
        rw [hproc] at hcond
        simp at hcond
      · cases hclaim
    | finish res err _ =>
      by_cases hcond : err.isSome = true ∧ r.attempts < MAX_ATTEMPTS
      · refine ⟨hcond.2, ?_⟩
        unfold finishRequest
        rw [if_pos hcond]
      · exfalso
        unfold finishRequest at hpend
        rw [if_neg hcond] at hpend
        simp only at hpend
        by_cases herr : err.isSome
        · simp [herr] at hpend
        · simp [herr] at hpend
  · intro hfail hstep
    cases hstep with
    | claim w hclaim =>
      unfold claimRequest at hclaim
      split at hclaim
      · rename_i hcond
        rw [hfail] at hcond
        simp at hcond
      · cases hclaim
    | finish res err hproc =>
      rw [hfail] at hproc
      simp at hproc

/-- Step 1 of the witness trace: first claim at time 0. -/
def wreq1 : ApiRequest := (claimRequest newRequest "w" 0).getD newRequest

/-- Step 2: first dispatch fails, re-queued with a 2 s backoff. -/
def wreq2 : ApiRequest := (finishRequest wreq1 none (some "E") 0).1

/-- Step 3: second claim at time 2000. -/
def wreq3 : ApiRequest := (claimRequest wreq2 "w" 2000).getD newRequest

/-- Step 4: second dispatch fails, re-queued with a 4 s backoff. -/
def wreq4 : ApiRequest := (finishRequest wreq3 none (some "E") 2000).1

/-- Step 5: third claim at time 6000. -/
def wreq5 : ApiRequest := (claimRequest wreq4 "w" 6000).getD newRequest

/-- Step 6: third dispatch fails, finalized failed. -/
def wreq6 : ApiRequest := (finishRequest wreq5 none (some "E") 6000).1

theorem wreq6_reachable : Reachable wreq6 := by
  have h0 : Reachable newRequest := Reachable.init
  have h1 : Reachable wreq1 :=
    Reachable.step 0 h0 (Step.claim "w" (by decide))
  have h2 : Reachable wreq2 :=
    Reachable.step 0 h1 (@Step.finish wreq1 0 none (some "E") (by decide))
  have h3 : Reachable wreq3 :=
    Reachable.step 2000 h2 (Step.claim "w" (by decide))
  have h4 : Reachable wreq4 :=
    Reachable.step 2000 h3 (@Step.finish wreq3 2000 none (some "E") (by decide))
  have h5 : Reachable wreq5 :=
    Reachable.step 6000 h4 (Step.claim "w" (by decide))
  exact Reachable.step 6000 h5 (@Step.finish wreq5 6000 none (some "E") (by decide))

/-- Witness for the C1 theorem at the concrete failed request wreq6. -/
theorem apiRequest_requeue_gate_and_failed_terminal_witness :
    wreq6.status = Status.failed ∧ wreq6.attempts = MAX_ATTEMPTS :=
  ⟨by decide,
   (apiRequest_requeue_gate_and_failed_terminal wreq6 newRequest 0 wreq6_reachable).2.1
     (by decide)⟩

/-! ## Rate limits (RequestProcessor.worker.js lines 24-50, config/providerConfig.js) -/

/-- Per-provider rate limits (config/providerConfig.js). -/
structure RateLimits where
  rateLimitPerSecond : Nat
  rateLimitPerMinute : Nat
  rateLimitPerDay : Nat
deriving DecidableEq, Repr

/-- 1000 ms (line 45). -/
def oneSecondMs : Nat := 1000

/-- 60 * 1000 ms (line 38). -/
def oneMinuteMs : Nat := 60 * 1000

/-- 24 * 60 * 60 * 1000 ms (line 31). -/
def oneDayMs : Nat := 24 * 60 * 60 * 1000

/-- The countDocuments query the driver issues before claiming: completed
requests of the provider with completedAt ≥ now − window. done is the
list of completedAt stamps of completed requests of this provider. -/
def completedSince (done : List Nat) (now window : Nat) : Nat :=
  done.countP (fun t => decide (now - window ≤ t))

/-- Completions falling inside the rolling window [now − window, now]. -/
def completedInWindow (done : List Nat) (now window : Nat) : Nat :=
  done.countP (fun t => decide (now - window ≤ t ∧ t ≤ now))

/-- The sequential three-window check (lines 31-50): the day window
first, then the minute window, then the second window; a saturated
window makes the driver skip the provider. -/
def rateGate (cfg : RateLimits) (done : List Nat) (now : Nat) : Bool :=
  if cfg.rateLimitPerDay ≤ completedSince done now oneDayMs then false
  else if cfg.rateLimitPerMinute ≤ completedSince done now oneMinuteMs then false
  else if cfg.rateLimitPerSecond ≤ completedSince done now oneSecondMs then false
  else true

/-- Claim the oldest matching pending request (findOneAndUpdate with
sort createdAt ascending): the queue list is ordered by creation time. -/
def claimNext (queue : List ApiRequest) (w : String) (now : Nat) : Option ApiRequest :=
  match queue with
  | [] => none
  | r :: rest =>
    match claimRequest r w now with
    | some r' => some r'
    | none => claimNext rest w now

/-- One provider iteration of processQueue: check the three windows and
only when no window is saturated claim a pending request. -/
def providerTick (cfg : RateLimits) (done : List Nat) (queue : List ApiRequest)
    (w : String) (now : Nat) : Option ApiRequest :=
  if rateGate cfg done now then claimNext queue w now else none

/-- Completion histories producible by the sequential driver loop for one
provider and one window of width `window` limited to `lim`: each new
completion at time t passed a pre-claim check at a time c with every
prior completion at or before c and strictly fewer than lim counted
completions. Newest completion first. -/
inductive GatedHistory (window lim : Nat) : List Nat → Prop
  | nil : GatedHistory window lim []
  | tick (c t : Nat) (done : List Nat) :
      GatedHistory window lim done →
      (∀ x ∈ done, x ≤ c) →
      c ≤ t →
      completedSince done c window < lim →
      GatedHistory window lim (t :: done)

theorem gatedHistory_window_bound {window lim : Nat} {done : List Nat}
    (h : GatedHistory window lim done) (now : Nat) :
    completedInWindow done now window ≤ lim := by
  induction h with
  | nil => simp [completedInWindow]
  | tick c t rest hrest hbefore hct hgate ih =>
    unfold completedInWindow
    by_cases hmem : now - window ≤ t ∧ t ≤ now
    · rw [List.countP_cons_of_pos _ _ (by simpa using hmem)]
      have hcnow : c ≤ now := le_trans hct hmem.2
      have hsub : List.countP (fun x => decide (now - window ≤ x ∧ x ≤ now)) rest
          ≤ completedSince rest c window := by
        unfold completedSince
        apply List.countP_mono_left
        intro x hx hpx
        simp only [decide_eq_true_eq] at hpx ⊢
        omega
      have hlt : List.countP (fun x => decide (now - window ≤ x ∧ x ≤ now)) rest < lim :=
        lt_of_le_of_lt hsub hgate
      omega
    · rw [List.countP_cons_of_neg _ _ (by simpa using hmem)]
      have := ih
      unfold completedInWindow at this
      exact this

/-- Completion histories of the driver with the full three-window gate. -/
inductive DriverHistory (cfg : RateLimits) : List Nat → Prop
  | nil : DriverHistory cfg []
  | tick (c t : Nat) (done : List Nat) :
      DriverHistory cfg done →
      (∀ x ∈ done, x ≤ c) →
      c ≤ t →
      rateGate cfg done c = true →
      DriverHistory cfg (t :: done)

theorem rateGate_true_iff {cfg : RateLimits} {done : List Nat} {now : Nat} :
    rateGate cfg done now = true ↔
      completedSince done now oneDayMs < cfg.rateLimitPerDay
      ∧ completedSince done now oneMinuteMs < cfg.rateLimitPerMinute
      ∧ completedSince done now oneSecondMs < cfg.rateLimitPerSecond := by
  unfold rateGate
  by_cases h1 : cfg.rateLimitPerDay ≤ completedSince done now oneDayMs
  · rw [if_pos h1]
    exact iff_of_false (by simp) (by omega)
  · rw [if_neg h1]
    by_cases h2 : cfg.rateLimitPerMinute ≤ completedSince done now oneMinuteMs
    · rw [if_pos h2]
      exact iff_of_false (by simp) (by omega)
    · rw [if_neg h2]
      by_cases h3 : cfg.rateLimitPerSecond ≤ completedSince done now oneSecondMs
      · rw [if_pos h3]
        exact iff_of_false (by simp) (by omega)
      · rw [if_neg h3]
        exact iff_of_true rfl ⟨by omega, by omega, by omega⟩

theorem driverHistory_gated {cfg : RateLimits} {done : List Nat}
    (h : DriverHistory cfg done) :
    GatedHistory oneSecondMs cfg.rateLimitPerSecond done
    ∧ GatedHistory oneMinuteMs cfg.rateLimitPerMinute done
    ∧ GatedHistory oneDayMs cfg.rateLimitPerDay done := by
  induction h with
  | nil => exact ⟨GatedHistory.nil, GatedHistory.nil, GatedHistory.nil⟩
  | tick c t rest hrest hbefore hct hgate ih =>
    obtain ⟨hd, hm, hs⟩ := rateGate_true_iff.mp hgate
    exact ⟨GatedHistory.tick c t rest ih.1 hbefore hct hs,
           GatedHistory.tick c t rest ih.2.1 hbefore hct hm,
           GatedHistory.tick c t rest ih.2.2 hbefore hct hd⟩

/-- Claim C2: for every provider history produced by the driver, the
completions inside the rolling one-second, one-minute and one-day
windows never exceed the configured limits; and a provider iteration
whose day, minute or second window is saturated claims no request. -/
theorem rate_limit_windows_and_skip (cfg : RateLimits) (done : List Nat)
    (hist : DriverHistory cfg done) (now : Nat) :
    (completedInWindow done now oneSecondMs ≤ cfg.rateLimitPerSecond
     ∧ completedInWindow done now oneMinuteMs ≤ cfg.rateLimitPerMinute
     ∧ completedInWindow done now oneDayMs ≤ cfg.rateLimitPerDay)
    ∧ (∀ d : List Nat, ∀ c : Nat, ∀ queue : List ApiRequest, ∀ w : String,
        (cfg.rateLimitPerDay ≤ completedSince d c oneDayMs
         ∨ cfg.rateLimitPerMinute ≤ completedSince d c oneMinuteMs
         ∨ cfg.rateLimitPerSecond ≤ completedSince d c oneSecondMs) →
        providerTick cfg d queue w c = none) := by
  obtain ⟨hs, hm, hd⟩ := driverHistory_gated hist
  refine ⟨⟨gatedHistory_window_bound hs now, gatedHistory_window_bound hm now,
           gatedHistory_window_bound hd now⟩, ?_⟩
  intro d c queue w hsat
  unfold providerTick
  have hgate : rateGate cfg d c = false := by
    by_contra hne
    have : rateGate cfg d c = true := by
      cases hgc : rateGate cfg d c
      · exact absurd hgc hne
      · rfl
    obtain ⟨h1, h2, h3⟩ := rateGate_true_iff.mp this
    omega
  rw [hgate]
  simp

/-- Witness for the C2 theorem: a concrete two-completion history under
the default etherscan limits. -/
theorem rate_limit_windows_and_skip_witness :
    completedInWindow [500, 0] 500 oneSecondMs
      ≤ ({ rateLimitPerSecond := 5, rateLimitPerMinute := 300,
           rateLimitPerDay := 100000 } : RateLimits).rateLimitPerSecond := by
  have hist : DriverHistory
      { rateLimitPerSecond := 5, rateLimitPerMinute := 300, rateLimitPerDay := 100000 }
      [500, 0] := by
    refine DriverHistory.tick 400 500 [0] ?_ (by decide) (by decide) (by decide)
    exact DriverHistory.tick 0 0 [] DriverHistory.nil (by decide) (by decide) (by decide)
  exact (rate_limit_windows_and_skip
    { rateLimitPerSecond := 5, rateLimitPerMinute := 300, rateLimitPerDay := 100000 }
    [500, 0] hist 500).1.1

/-! ## Dispatch error handling (RequestProcessor.worker.js lines 84-147) -/

/-- A request on its first attempt, as claimed by the processor. -/
def c3Request : ApiRequest :=
  { status := .processing, attempts := 1, retryAt := none, error := none,
    result := none, processingId := some "w", completedAt := none }

/-- A request on its last attempt, as claimed by the processor. -/
def c3RequestLast : ApiRequest :=
  { status := .processing, attempts := 3, retryAt := some 6000, error := none,
    result := none, processingId := some "w", completedAt := none }

/-- Claim C3 counterexample: an AI content-filter error (a permanent
external error) on attempt 1 is NOT surfaced to the caller: the request
is re-queued to pending with a 2 s backoff window and no resolution is
delivered, contradicting the claim that such errors are surfaced
immediately with no re-queue and no backoff regardless of attempts. -/
theorem permanent_error_requeued_counterexample :
    (finishRequest c3Request none (some "AI analysis returned no candidates.") 0).1.status
      = Status.pending
    ∧ (finishRequest c3Request none (some "AI analysis returned no candidates.") 0).2 = none
    ∧ (finishRequest c3Request none (some "AI analysis returned no candidates.") 0).1.retryAt
      = some 2000 := by
  decide

/-- Claim C3 (amended): the processor does not classify errors; every
dispatch error, permanent external errors included, is re-queued to
pending with a 2 ^ attempts second backoff while attempts < MAX_ATTEMPTS,
and is surfaced to the waiting caller only when attempts have reached
MAX_ATTEMPTS. -/
theorem dispatch_error_uniform_retry (r : ApiRequest) (res : Option String)
    (msg : String) (now : Nat) :
    (r.attempts < MAX_ATTEMPTS →
       (finishRequest r res (some msg) now).1.status = Status.pending
       ∧ (finishRequest r res (some msg) now).1.retryAt = some (now + 2 ^ r.attempts * 1000)
       ∧ (finishRequest r res (some msg) now).2 = none)
    ∧ (MAX_ATTEMPTS ≤ r.attempts →
       (finishRequest r res (some msg) now).1.status = Status.failed
       ∧ (finishRequest r res (some msg) now).2 = some { result := res, error := some msg }) := by
  constructor
  · intro hlt
    unfold finishRequest
    rw [if_pos ⟨rfl, hlt⟩]
    exact ⟨rfl, rfl, rfl⟩
  · intro hge
    unfold finishRequest
    rw [if_neg (fun hc => absurd hc.2 (by omega))]
    exact ⟨rfl, rfl⟩

/-- Witness for the amended C3 theorem at both a first-attempt and a
last-attempt request. -/
theorem dispatch_error_uniform_retry_witness :
    (finishRequest c3Request none (some "E") 0).1.status = Status.pending
    ∧ (finishRequest c3RequestLast none (some "E") 9000).1.status = Status.failed :=
  ⟨((dispatch_error_uniform_retry c3Request none "E" 0).1 (by decide)).1,
   ((dispatch_error_uniform_retry c3RequestLast none "E" 9000).2 (by decide)).1⟩

/-- One claim-dispatch-fail cycle at time now against a provider whose
endpoint always fails with message msg. The state is unchanged when no
claim matches. -/
def failingCycle (r : ApiRequest) (msg : String) (now : Nat) : ApiRequest × Option Resolution :=
  match claimRequest r "w" now with
  | some rc => finishRequest rc none (some msg) now
  | none => (r, none)

/-- State after the first failed attempt (claimed and failed at t = 0). -/
def c4State1 (msg : String) : ApiRequest := (failingCycle newRequest msg 0).1

/-- State after the second failed attempt (claimed and failed at t = 2000). -/
def c4State2 (msg : String) : ApiRequest := (failingCycle (c4State1 msg) msg 2000).1

/-- State and resolution after the third failed attempt (t = 6000). -/
def c4Run (msg : String) : ApiRequest × Option Resolution :=
  failingCycle (c4State2 msg) msg 6000

/-- The caller side of RequestQueueService.add (lines 37-44): reject with
the error when present, else resolve with the result. -/
def callerOutcome (res : Resolution) : Except String (Option String) :=
  match res.error with
  | some e => Except.error e
  | none => Except.ok res.result

/-- Claim C4 counterexample: for an always-failing endpoint the three
attempts are separated by only TWO backoffs, of 2 s (retry at 2000 after
failing at 0) and 4 s (retry at 6000 after failing at 2000); the third
failure finalizes the record as failed instead of scheduling the claimed
8 s backoff (which would have set retryAt = 14000 at time 6000). -/
theorem backoff_schedule_counterexample :
    (c4State1 "HTTP 500").retryAt = some 2000
    ∧ (c4State2 "HTTP 500").retryAt = some 6000
    ∧ (c4Run "HTTP 500").1.status = Status.failed
    ∧ (c4Run "HTTP 500").1.retryAt ≠ some 14000 := by
  decide

/-- Flat form of the state after the first failed attempt. -/
def c4s1 (msg : String) : ApiRequest :=
  { status := .pending, attempts := 1, retryAt := some 2000,
    error := some ("Attempt 1 failed: " ++ msg), result := none,
    processingId := none, completedAt := none }

/-- Flat form of the state after the second failed attempt. -/
def c4s2 (msg : String) : ApiRequest :=
  { status := .pending, attempts := 2, retryAt := some 6000,
    error := some ("Attempt 2 failed: " ++ msg), result := none,
    processingId := none, completedAt := none }

/-- Flat form of the final failed state and the delivered resolution. -/
def c4sFinal (msg : String) : ApiRequest × Option Resolution :=
  ({ status := .failed, attempts := 3, retryAt := some 6000,
     error := some msg, result := none, processingId := none,
     completedAt := some 6000 },
   some { result := none, error := some msg })

theorem c4State1_eq (msg : String) : c4State1 msg = c4s1 msg := by
  unfold c4State1 failingCycle claimRequest finishRequest
  simp [newRequest, c4s1, retryDue, MAX_ATTEMPTS]
  exact congrArg (fun s => s ++ msg) (by rfl)

theorem c4State2_eq (msg : String) : c4State2 msg = c4s2 msg := by
  unfold c4State2
  rw [c4State1_eq]
  unfold failingCycle claimRequest finishRequest
  simp [c4s1, c4s2, retryDue, MAX_ATTEMPTS]
  exact congrArg (fun s => s ++ msg) (by rfl)

theorem c4Run_eq (msg : String) : c4Run msg = c4sFinal msg := by
  unfold c4Run
  rw [c4State2_eq]
  unfold failingCycle claimRequest finishRequest
  simp [c4s2, c4sFinal, retryDue, MAX_ATTEMPTS]

/-- Claim C4 (amended): for a provider whose endpoint fails on every
dispatch, the first three attempts are separated by backoffs of 2 s and
4 s (the 2 ^ attempts schedule after the first and second failures); a
fourth attempt is never made because MAX_ATTEMPTS = 3: after the third
attempt the record is failed with attempts = MAX_ATTEMPTS, no further
claim matches it, and the waiting caller is rejected with the last error
message. -/
theorem failing_provider_three_attempts (msg : String) :
    ((c4State1 msg).status = Status.pending ∧ (c4State1 msg).attempts = 1
      ∧ (c4State1 msg).retryAt = some (0 + 2 ^ 1 * 1000))
    ∧ ((c4State2 msg).status = Status.pending ∧ (c4State2 msg).attempts = 2
      ∧ (c4State2 msg).retryAt = some (2000 + 2 ^ 2 * 1000))
    ∧ ((c4Run msg).1.status = Status.failed ∧ (c4Run msg).1.attempts = MAX_ATTEMPTS
      ∧ (c4Run msg).2 = some { result := none, error := some msg })
    ∧ (∀ t : Nat, claimRequest (c4Run msg).1 "w" t = none)
    ∧ (∀ res : Resolution, (c4Run msg).2 = some res → callerOutcome res = Except.error msg) := by
  refine ⟨?_, ?_, ?_, ?_, ?_⟩
  · rw [c4State1_eq]
    exact ⟨rfl, rfl, rfl⟩
  · rw [c4State2_eq]
    exact ⟨rfl, rfl, rfl⟩
  · rw [c4Run_eq]
    exact ⟨rfl, rfl, rfl⟩
  · intro t
    rw [c4Run_eq]
    unfold claimRequest
    rw [if_neg]
    intro hc
    have hfp : Status.failed = Status.pending := hc.1
    exact absurd hfp (by decide)
  · intro res h
    rw [c4Run_eq] at h
    have hres : ({ result := none, error := some msg } : Resolution) = res :=
      Option.some.inj h
    rw [← hres]
    rfl

/-- Witness for the amended C4 theorem with msg = HTTP 500. -/
theorem failing_provider_three_attempts_witness :
    callerOutcome { result := none, error := some "HTTP 500" } = Except.error "HTTP 500" :=
  (failing_provider_three_attempts "HTTP 500").2.2.2.2
    { result := none, error := some "HTTP 500" } (by decide)

/-! ## Transaction fetcher (TransactionFetcher.worker.js lines 24-71) -/

/-- A cached transaction row; only the block number matters here. -/
structure TxRow where
  blockNumber : Nat
deriving DecidableEq, Repr

/-- Per-stream last-block watermarks (wallet.transactionCache.lastBlock). -/
structure StreamBlocks where
  txlist : Nat
  tokentx : Nat
  tokennfttx : Nat
deriving DecidableEq, Repr

/-- The per-wallet transaction cache. -/
structure TransactionCache where
  txlist : List TxRow
  tokentx : List TxRow
  tokennfttx : List TxRow
  lastBlock : StreamBlocks
deriving DecidableEq, Repr

/-- How one stream is fetched: an initial scan (sort desc, offset maxTx)
or an incremental fetch ascending from startblock. -/
inductive FetchPlan
  | initialScan (maxTx : Nat)
  | incremental (startblock : Nat)
deriving DecidableEq, Repr

/-- The fetch decision of processFetchTransactions (lines 25-50):
isInitialScan is computed from the txlist watermark alone and applied to
all three streams; otherwise every stream starts from its own
watermark + 1. Returns the plans for (txlist, tokentx, tokennfttx). -/
def fetchPlans (cache : TransactionCache) (maxTx : Nat) :
    FetchPlan × FetchPlan × FetchPlan :=
  if cache.lastBlock.txlist = 0 then
    (.initialScan maxTx, .initialScan maxTx, .initialScan maxTx)
  else
    (.incremental (cache.lastBlock.txlist + 1),
     .incremental (cache.lastBlock.tokentx + 1),
     .incremental (cache.lastBlock.tokennfttx + 1))

/-- Math.max over the block numbers of the fetched rows. -/
def maxBlock (rows : List TxRow) : Nat :=
  rows.foldl (fun m r => max m r.blockNumber) 0

/-- Cache update for one stream (lines 56-67): when new rows arrived,
append them and set the watermark to the maximum fetched block number;
otherwise leave list and watermark unchanged. -/
def updateStream (oldRows : List TxRow) (oldWm : Nat) (rows : List TxRow) :
    List TxRow × Nat :=
  if rows.isEmpty then (oldRows, oldWm)
  else (oldRows ++ rows, maxBlock rows)

/-- The cache transformation of one fetch run given the three fetched
row lists. -/
def applyFetch (cache : TransactionCache) (n1 n2 n3 : List TxRow) : TransactionCache :=
  let s1 := updateStream cache.txlist cache.lastBlock.txlist n1
  let s2 := updateStream cache.tokentx cache.lastBlock.tokentx n2
  let s3 := updateStream cache.tokennfttx cache.lastBlock.tokennfttx n3
  { txlist := s1.1, tokentx := s2.1, tokennfttx := s3.1,
    lastBlock := { txlist := s1.2, tokentx := s2.2, tokennfttx := s3.2 } }

/-- A cache whose normal stream has progressed while the token stream
watermark is still 0. -/
def c5Cache : TransactionCache :=
  { txlist := [{ blockNumber := 7 }], tokentx := [], tokennfttx := [],
    lastBlock := { txlist := 7, tokentx := 0, tokennfttx := 0 } }

/-- Claim C5 counterexample: the token stream of c5Cache has watermark 0,
yet the fetch run does NOT perform an initial scan for it: because the
decision is taken from the txlist watermark alone, the token stream is
fetched incrementally from start block 1. The claimed per-stream rule
(initial scan iff that stream has watermark 0) is false. -/
theorem fetch_initial_scan_counterexample :
    c5Cache.lastBlock.tokentx = 0
    ∧ (fetchPlans c5Cache 1000).2.1 = FetchPlan.incremental 1
    ∧ (fetchPlans c5Cache 1000).2.1 ≠ FetchPlan.initialScan 1000 := by
  decide

theorem maxBlock_le {rows : List TxRow} {r : TxRow} (hmem : r ∈ rows) :
    r.blockNumber ≤ maxBlock rows := by
  unfold maxBlock
  have haux : ∀ l : List TxRow, ∀ a : Nat,
      (∀ x ∈ l, x.blockNumber ≤ l.foldl (fun m r => max m r.blockNumber) a)
      ∧ a ≤ l.foldl (fun m r => max m r.blockNumber) a := by
    intro l
    induction l with
    | nil =>
      intro a
      exact ⟨fun x hx => absurd hx (List.not_mem_nil x), le_refl a⟩
    | cons hd tl ih =>
      intro a
      constructor
      · intro x hx
        rcases List.mem_cons.mp hx with hx | hx
        · subst hx
          simp only [List.foldl_cons]
          exact le_trans (le_max_right a x.blockNumber) (ih (max a x.blockNumber)).2
        · exact (ih (max a hd.blockNumber)).1 x hx
      · simp only [List.foldl_cons]
        exact le_trans (le_max_left a hd.blockNumber) (ih (max a hd.blockNumber)).2
  exact (haux rows 0).1 r hmem

/-- Claim C5 (amended): the run performs an initial scan, for all three
streams at once, iff the NORMAL stream watermark is 0 (the code decides
from cache.lastBlock.txlist alone); otherwise every stream is fetched
ascending from its own watermark + 1. After a run a stream watermark
equals the maximum fetched block number when rows arrived and is
unchanged otherwise; whenever every fetched row has a block number above
the old watermark (as an explorer honoring startblock = watermark + 1
guarantees), the watermark does not decrease. -/
theorem fetch_plan_and_watermark (cache : TransactionCache) (maxTx : Nat)
    (oldRows rows : List TxRow) (oldWm : Nat) :
    (cache.lastBlock.txlist = 0 →
       fetchPlans cache maxTx
         = (.initialScan maxTx, .initialScan maxTx, .initialScan maxTx))
    ∧ (cache.lastBlock.txlist ≠ 0 →
       fetchPlans cache maxTx
         = (.incremental (cache.lastBlock.txlist + 1),
            .incremental (cache.lastBlock.tokentx + 1),
            .incremental (cache.lastBlock.tokennfttx + 1)))
    ∧ (rows = [] → updateStream oldRows oldWm rows = (oldRows, oldWm))
    ∧ (rows ≠ [] → updateStream oldRows oldWm rows = (oldRows ++ rows, maxBlock rows))
    ∧ ((∀ r ∈ rows, oldWm < r.blockNumber) →
       oldWm ≤ (updateStream oldRows oldWm rows).2) := by
  refine ⟨?_, ?_, ?_, ?_, ?_⟩
  · intro h
    unfold fetchPlans
    rw [if_pos h]
  · intro h
    unfold fetchPlans
    rw [if_neg h]
  · intro h
    subst h
    rfl
  · intro h
    unfold updateStream
    rw [if_neg (by simpa using h)]
  · intro hgt
    unfold updateStream
    by_cases hemp : rows.isEmpty
    · rw [if_pos hemp]
    · rw [if_neg hemp]
      obtain ⟨r0, hr0⟩ := List.exists_mem_of_ne_nil rows (by simpa using hemp)
      exact le_trans (le_of_lt (hgt r0 hr0)) (maxBlock_le hr0)

/-- Witness for the amended C5 theorem at the concrete counterexample
cache and a one-row incremental fetch result. -/
theorem fetch_plan_and_watermark_witness :
    fetchPlans c5Cache 1000
      = (.incremental 8, .incremental 1, .incremental 1)
    ∧ updateStream c5Cache.txlist c5Cache.lastBlock.txlist [{ blockNumber := 9 }]
      = ([{ blockNumber := 7 }, { blockNumber := 9 }], 9)
    ∧ c5Cache.lastBlock.txlist
      ≤ (updateStream c5Cache.txlist c5Cache.lastBlock.txlist [{ blockNumber := 9 }]).2 := by
  refine ⟨?_, ?_, ?_⟩
  · have h := (fetch_plan_and_watermark c5Cache 1000 [] [] 0).2.1 (by decide)
    rw [h]
    decide
  · have h := (fetch_plan_and_watermark c5Cache 1000 c5Cache.txlist
      [{ blockNumber := 9 }] c5Cache.lastBlock.txlist).2.2.2.1 (by decide)
    rw [h]
    decide
  · exact (fetch_plan_and_watermark c5Cache 1000 c5Cache.txlist
      [{ blockNumber := 9 }] c5Cache.lastBlock.txlist).2.2.2.2 (by decide)

/-! ## Risk score (TransactionFetcher.worker.js pack: calculateRiskScore, activity worker lines 110-139) -/

/-- One approval item of details.approvalAnalysis.items. -/
structure ApprovalItem where
  isUnlimited : Bool
deriving DecidableEq, Repr

/-- The details.approvalAnalysis report section. -/
structure ApprovalAnalysis where
  items : List ApprovalItem
deriving DecidableEq, Repr

/-- The details.contractAnalysis report section (addresses abstracted). -/
structure ContractAnalysisSection where
  unverifiedContracts : List String
  unverifiedWithRisks : List String
  verifiedContractsWithRisks : List String
deriving DecidableEq, Repr

/-- The details.activityMetrics report section. walletAgeDays is an
integer as produced by Math.round. -/
structure ActivityMetrics where
  transactionCount : Nat
  walletAgeDays : Int
deriving DecidableEq, Repr

/-- The report details object; each section is absent until its worker
has written it. -/
structure ReportDetails where
  approvalAnalysis : Option ApprovalAnalysis
  contractAnalysis : Option ContractAnalysisSection
  activityMetrics : Option ActivityMetrics
deriving DecidableEq, Repr

/-- Approval block of calculateRiskScore (max 40 points). -/
def approvalScoreOf (details : ReportDetails) : Nat :=
  match details.approvalAnalysis with
  | some aa =>
    let unlimitedCount := (aa.items.filter (fun a => a.isUnlimited)).length
    let limitedCount := aa.items.length - unlimitedCount
    min (unlimitedCount * 10) 30 + min (limitedCount * 2) 10
  | none => 0

/-- Contract block of calculateRiskScore (max 40 points); note that only
unverifiedContracts and verifiedContractsWithRisks are counted. -/
def contractScoreOf (details : ReportDetails) : Nat :=
  match details.contractAnalysis with
  | some ca =>
    min (ca.unverifiedContracts.length * 5) 25
      + min (ca.verifiedContractsWithRisks.length * 3) 15
  | none => 0

/-- Activity block of calculateRiskScore (max 20 points). -/
def activityScoreOf (details : ReportDetails) : Nat :=
  match details.activityMetrics with
  | some m =>
    (if m.transactionCount < 10 then 10 else 0)
      + (if m.walletAgeDays < 30 then 10 else 0)
  | none => 0

/-- calculateRiskScore from the activity worker: the three additive
blocks, capped at 100. An absent section contributes nothing. -/
def calculateRiskScore (details : ReportDetails) : Nat :=
  min (approvalScoreOf details + contractScoreOf details + activityScoreOf details) 100

/-- Count of unlimited approvals in the report details (0 when the
section is absent). -/
def unlimitedCountOf (details : ReportDetails) : Nat :=
  match details.approvalAnalysis with
  | some aa => (aa.items.filter (fun a => a.isUnlimited)).length
  | none => 0

/-- Count of limited approvals in the report details. -/
def limitedCountOf (details : ReportDetails) : Nat :=
  match details.approvalAnalysis with
  | some aa => aa.items.length - (aa.items.filter (fun a => a.isUnlimited)).length
  | none => 0

/-- Count of unverified contracts without risky signatures. -/
def unverifiedCountOf (details : ReportDetails) : Nat :=
  match details.contractAnalysis with
  | some ca => ca.unverifiedContracts.length
  | none => 0

/-- Count of verified contracts with risky keywords. -/
def verifiedRiskyCountOf (details : ReportDetails) : Nat :=
  match details.contractAnalysis with
  | some ca => ca.verifiedContractsWithRisks.length
  | none => 0

/-- Whether the low-activity bonus applies (transaction_count < 10). -/
def lowActivityOf (details : ReportDetails) : Bool :=
  match details.activityMetrics with
  | some m => m.transactionCount < 10
  | none => false

/-- Whether the young-wallet bonus applies (wallet_age_days < 30). -/
def youngWalletOf (details : ReportDetails) : Bool :=
  match details.activityMetrics with
  | some m => m.walletAgeDays < 30
  | none => false

/-- Modelled from the spec: the risk score formula as the specification
states it, sum of the six clamped contributions then clamp to 100. -/
def specRiskScore (unlimited limited unverified verifiedRisky : Nat)
    (lowActivity youngWallet : Bool) : Nat :=
  min (min (unlimited * 10) 30 + min (limited * 2) 10
        + min (unverified * 5) 25 + min (verifiedRisky * 3) 15
        + (if lowActivity then 10 else 0) + (if youngWallet then 10 else 0)) 100

theorem approvalScoreOf_eq (details : ReportDetails) :
    approvalScoreOf details
      = min (unlimitedCountOf details * 10) 30 + min (limitedCountOf details * 2) 10 := by
  unfold approvalScoreOf unlimitedCountOf limitedCountOf
  rcases details with ⟨oa, oc, om⟩
  rcases oa with _ | aa <;> simp

theorem contractScoreOf_eq (details : ReportDetails) :
    contractScoreOf details
      = min (unverifiedCountOf details * 5) 25 + min (verifiedRiskyCountOf details * 3) 15 := by
  unfold contractScoreOf unverifiedCountOf verifiedRiskyCountOf
  rcases details with ⟨oa, oc, om⟩
  rcases oc with _ | ca <;> simp

theorem activityScoreOf_eq (details : ReportDetails) :
    activityScoreOf details
      = (if lowActivityOf details then 10 else 0)
        + (if youngWalletOf details then 10 else 0) := by
  unfold activityScoreOf lowActivityOf youngWalletOf
  rcases details with ⟨oa, oc, om⟩
  rcases om with _ | m
  · simp
  · simp only [decide_eq_true_eq]

/-- Claim C6: the computed risk score equals the specification formula
min(unlimited*10,30) + min(limited*2,10) + min(unverified*5,25)
+ min(verifiedRisky*3,15) + (10 if low activity) + (10 if young wallet),
clamped at 100, and the stored score is always in [0, 100]. -/
theorem risk_score_formula_and_range (details : ReportDetails) :
    calculateRiskScore details
      = specRiskScore (unlimitedCountOf details) (limitedCountOf details)
          (unverifiedCountOf details) (verifiedRiskyCountOf details)
          (lowActivityOf details) (youngWalletOf details)
    ∧ calculateRiskScore details ≤ 100 := by
  constructor
  · unfold calculateRiskScore specRiskScore
    rw [approvalScoreOf_eq, contractScoreOf_eq, activityScoreOf_eq]
    omega
  · unfold calculateRiskScore
    exact Nat.min_le_right _ 100

/-! ## Honeypot heuristics (contract.worker.js lines 60-112) and the
verified-contract alert decision (lines 227-246) -/

/-- Whitespace characters for the regex class backslash-s, as relevant
to Solidity sources. -/
def jsWhitespace (c : Char) : Bool :=
  c = ' ' || c = '\t' || c = '\n' || c = '\r' || c = '\x0b' || c = '\x0c'

/-- Case-insensitive literal match: consume lit from the front of s and
return the rest, or none. -/
def eatLit (lit : List Char) (s : List Char) : Option (List Char) :=
  match lit, s with
  | [], rest => some rest
  | _ :: _, [] => none
  | l :: ls, c :: cs => if c.toLower = l.toLower then eatLit ls cs else none

/-- Consume all leading whitespace (greedy backslash-s star). -/
def eatWsAll (s : List Char) : List Char :=
  match s with
  | c :: cs => if jsWhitespace c then eatWsAll cs else c :: cs
  | [] => []

/-- Consume one or more whitespace characters (backslash-s plus). -/
def eatWsPlus (s : List Char) : Option (List Char) :=
  match s with
  | c :: cs => if jsWhitespace c then some (eatWsAll cs) else none
  | [] => none

/-- Consume characters other than the closing parenthesis, then the
closing parenthesis itself. -/
def eatParenBody (s : List Char) : Option (List Char) :=
  match s with
  | [] => none
  | c :: cs => if c = ')' then some cs else eatParenBody cs

/-- Consume an opening parenthesis, its body and the closing one. -/
def eatParenGroup (s : List Char) : Option (List Char) :=
  match s with
  | c :: cs => if c = '(' then eatParenBody cs else none
  | [] => none

/-- The transfer-hook pattern after the function name: parameter list in
parentheses, then internal, virtual, override, with optional whitespace
between the parts. -/
def hookTail (s : List Char) : Bool :=
  match eatParenGroup (eatWsAll s) with
  | none => false
  | some s1 =>
    match eatLit "internal".toList (eatWsAll s1) with
    | none => false
    | some s2 =>
      match eatLit "virtual".toList (eatWsAll s2) with
      | none => false
      | some s3 => (eatLit "override".toList (eatWsAll s3)).isSome

/-- Whether the transfer-hook override regex of analyzeHoneypotIndicators
matches at the start of s: function, whitespace, one of _transfer /
transferFrom / transfer (in the order of the alternation), the tail. -/
def hookAt (s : List Char) : Bool :=
  match eatLit "function".toList s with
  | none => false
  | some s0 =>
    match eatWsPlus s0 with
    | none => false
    | some s1 =>
      (match eatLit "_transfer".toList s1 with
        | some s2 => hookTail s2
        | none => false)
      || (match eatLit "transferFrom".toList s1 with
        | some s2 => hookTail s2
        | none => false)
      || (match eatLit "transfer".toList s1 with
        | some s2 => hookTail s2
        | none => false)

/-- Index of the leftmost transfer-hook match, as String.match reports
it. -/
def findHookIdx (s : List Char) : Option Nat :=
  match s with
  | [] => none
  | _ :: rest => if hookAt s then some 0 else (findHookIdx rest).map (fun n => n + 1)

/-- Whether the approve-call regex (approve, optional whitespace, an
opening parenthesis) matches at the start of s. -/
def approveAt (s : List Char) : Bool :=
  match eatLit "approve".toList s with
  | none => false
  | some s1 =>
    match eatWsAll s1 with
    | c :: _ => c = '('
    | [] => false

/-- Whether the approve-call regex matches anywhere in s. -/
def hasApproveCall (s : List Char) : Bool :=
  match s with
  | [] => false
  | _ :: rest => approveAt s || hasApproveCall rest

/-- Honeypot indicator 1 of analyzeHoneypotIndicators (lines 75-86):
hiddenApprove is set when the transfer-hook override regex matches and
the approve-call regex matches within the 500 characters starting at the
match index. -/
def hiddenApproveOf (source : List Char) : Bool :=
  match findHookIdx source with
  | some i => hasApproveCall ((source.drop i).take 500)
  | none => false

/-- The HIGH list of RISK_KEYWORDS (contract.worker.js lines 12-18). -/
def RISK_KEYWORDS_HIGH : List String :=
  ["selfdestruct", "delegatecall", "callcode", "tx.origin", "ecrecover"]

/-- Case-sensitive prefix test on character lists. -/
def listStartsWith (needle hay : List Char) : Bool :=
  match needle, hay with
  | [], _ => true
  | _ :: _, [] => false
  | n :: ns, h :: hs => n = h && listStartsWith ns hs

/-- Substring containment on character lists. -/
def listContains (needle hay : List Char) : Bool :=
  match hay with
  | [] => needle.isEmpty
  | _ :: rest => listStartsWith needle hay || listContains needle rest

/-- The HIGH keyword matches of the verified-source analysis (lines
181-185): the keywords found in the lowercased source. -/
def keywordRisksHigh (source : List Char) : List String :=
  RISK_KEYWORDS_HIGH.filter (fun k => listContains k.toList (source.map Char.toLower))

/-- The title an alert for a verified risky contract would carry. -/
inductive AlertTitle
  | criticalHoneypot
  | highRiskContract
deriving DecidableEq, Repr

/-- The notify decision for one verified contract with risks (lines
232-246): a message is sent only when the address was not previously
seen AND at least one HIGH keyword matched; its title is CRITICAL
HONEYPOT ALERT when hiddenApprove is set, HIGH-RISK CONTRACT INTERACTION
otherwise. -/
def verifiedContractAlert (isNew : Bool) (risksHigh : List String)
    (hiddenApprove : Bool) : Option AlertTitle :=
  if isNew && decide (0 < risksHigh.length) then
    some (if hiddenApprove then .criticalHoneypot else .highRiskContract)
  else
    none

/-- A verified honeypot source: a transfer-hook override followed by an
approve call, containing no HIGH risk keyword. -/
def c7Source : String :=
  "function _transfer(address sender, address recipient, uint256 amount) internal virtual override  approve(sender, recipient, amount); "

/-- Claim C7 counterexample: on c7Source the heuristic sets
hiddenApprove and no HIGH keyword matches, yet the notify loop emits NO
alert at all for this new contract - in particular not the CRITICAL
HONEYPOT ALERT title the claim promises, because the loop first requires
risks.HIGH to be nonempty. -/
theorem honeypot_alert_counterexample :
    hiddenApproveOf c7Source.toList = true
    ∧ keywordRisksHigh c7Source.toList = []
    ∧ verifiedContractAlert true (keywordRisksHigh c7Source.toList)
        (hiddenApproveOf c7Source.toList) = none := by
  decide

/-- Claim C7 (amended): when the transfer-hook override regex matches at
index i and the approve-call regex matches within the 500 characters
from i, the heuristic sets hiddenApprove = true; the CRITICAL HONEYPOT
ALERT title is used only when the new contract additionally matched at
least one HIGH risk keyword, and with no HIGH keyword match no
notification is emitted at all. -/
theorem hidden_approve_and_alert_title (source : List Char) (i : Nat)
    (highs : List String) (hidden isNew : Bool)
    (h1 : findHookIdx source = some i)
    (h2 : hasApproveCall ((source.drop i).take 500) = true) :
    hiddenApproveOf source = true
    ∧ (highs ≠ [] →
        verifiedContractAlert true highs true = some AlertTitle.criticalHoneypot)
    ∧ verifiedContractAlert isNew [] hidden = none := by
  refine ⟨?_, ?_, ?_⟩
  · unfold hiddenApproveOf
    rw [h1]
    exact h2
  · intro hne
    unfold verifiedContractAlert
    rw [if_pos]
    · rfl
    · simp only [Bool.true_and, decide_eq_true_eq]
      exact List.length_pos.mpr hne
  · unfold verifiedContractAlert
    rw [if_neg]
    simp

/-- Witness for the amended C7 theorem at c7Source. -/
theorem hidden_approve_and_alert_title_witness :
    hiddenApproveOf c7Source.toList = true
    ∧ verifiedContractAlert true ["selfdestruct"] true = some AlertTitle.criticalHoneypot :=
  have h := hidden_approve_and_alert_title c7Source.toList 0 ["selfdestruct"] false true
    (by decide) (by decide)
  ⟨h.1, h.2.1 (by decide)⟩

/-! ## Approval intent reconstruction (approval.worker.js lines 48-95) -/

/-- The parsed input of a transaction, as the approval analyzer branches
on it: the four recognized shapes. -/
inductive ParsedCall
  | approveCall (spender : String) (amount : Nat)
  | setApprovalForAllCall (operator : String) (approved : Bool)
  | permitCall (spender : String) (deadline : Nat)
  | permitTransferLike
deriving DecidableEq, Repr

/-- A cached transaction as the analyzer reads it: sender, target, and
the parsed call (none when parseTransactionInput returned null). -/
structure CachedTx where
  fromAddr : String
  toAddr : String
  parsed : Option ParsedCall
deriving DecidableEq, Repr

/-- Kind tag of a potentialApprovals entry. -/
inductive IntentKind
  | erc20
  | nft
  | permit
  | permit2
deriving DecidableEq, Repr

/-- A potentialApprovals entry (payload fields not needed by the
surviving-approval property are omitted). -/
structure Intent where
  kind : IntentKind
  contractAddress : String
  counterparty : String
deriving DecidableEq, Repr

/-- Map.set of the JavaScript Map on an association list: replace the
value at the key in place, or append a new entry. -/
def mapSet (m : List (String × Intent)) (k : String) (v : Intent) :
    List (String × Intent) :=
  match m with
  | [] => [(k, v)]
  | (k0, v0) :: rest => if k0 = k then (k0, v) :: rest else (k0, v0) :: mapSet rest k v

/-- Map.delete of the JavaScript Map: drop the entry with the key (maps
built by mapSet from the empty map never hold a key twice, so dropping
every match coincides with dropping the one entry). -/
def mapDelete (m : List (String × Intent)) (k : String) : List (String × Intent) :=
  m.filter (fun kv => decide (kv.1 ≠ k))

/-- Map.get of the JavaScript Map. -/
def mapGet (m : List (String × Intent)) (k : String) : Option Intent :=
  match m with
  | [] => none
  | (k0, v0) :: rest => if k0 = k then some v0 else mapGet rest k

/-- The template-literal map key contractAddress-spender. -/
def intentKey (contractAddress counterparty : String) : String :=
  contractAddress ++ "-" ++ counterparty

/-- One iteration of the transaction loop (lines 52-95): skip
transactions not sent from the wallet and unparsed inputs; otherwise
update the potentialApprovals map exactly as the analyzer does.
oneYearFromNow is the long-lived permit threshold computed at scan
time. -/
def approvalStep (walletAddress : String) (oneYearFromNow : Nat)
    (m : List (String × Intent)) (tx : CachedTx) : List (String × Intent) :=
  if tx.fromAddr.toLower ≠ walletAddress.toLower then m
  else
    match tx.parsed with
    | none => m
    | some (.approveCall spender _) =>
        mapSet m (intentKey tx.toAddr spender)
          { kind := .erc20, contractAddress := tx.toAddr, counterparty := spender }
    | some (.setApprovalForAllCall op approved) =>
        if approved then
          mapSet m (intentKey tx.toAddr op)
            { kind := .nft, contractAddress := tx.toAddr, counterparty := op }
        else
          mapDelete m (intentKey tx.toAddr op)
    | some (.permitCall spender deadline) =>
        if oneYearFromNow < deadline then
          mapSet m (intentKey tx.toAddr spender)
            { kind := .permit, contractAddress := tx.toAddr, counterparty := spender }
        else m
    | some .permitTransferLike =>
        mapSet m (intentKey tx.toAddr tx.toAddr)
          { kind := .permit2, contractAddress := tx.toAddr, counterparty := tx.toAddr }

/-- The reconstructed intent map of processApprovalAnalysis. -/
def buildIntentMap (walletAddress : String) (oneYearFromNow : Nat)
    (txs : List CachedTx) : List (String × Intent) :=
  txs.foldl (approvalStep walletAddress oneYearFromNow) []

/-- No surviving NFT approval for the pair (c, op): no entry stored
under the pair key records an NFT collection approval of op on c. -/
def noNftIntent (m : List (String × Intent)) (c op : String) : Prop :=
  ∀ e : Intent, mapGet m (intentKey c op) = some e →
    ¬(e.kind = IntentKind.nft ∧ e.contractAddress = c ∧ e.counterparty = op)

theorem mapGet_mapSet (m : List (String × Intent)) (k k' : String) (v : Intent) :
    mapGet (mapSet m k v) k' = if k' = k then some v else mapGet m k' := by
  induction m with
  | nil =>
    by_cases h : k' = k
    · simp [mapSet, mapGet, h]
    · simp [mapSet, mapGet, h, Ne.symm h]
  | cons kv rest ih =>
    obtain ⟨k0, v0⟩ := kv
    by_cases h0 : k0 = k
    · subst h0
      by_cases h1 : k0 = k'
      · simp [mapSet, mapGet, h1]
      · simp [mapSet, mapGet, h1, Ne.symm h1]
    · by_cases h1 : k0 = k'
      · have hne : ¬ k' = k := fun hh => h0 (h1.trans hh)
        simp [mapSet, mapGet, h0, h1, hne]
      · simp [mapSet, mapGet, h0, h1, Ne.symm h1, ih]

theorem mapGet_mapDelete (m : List (String × Intent)) (k k' : String) :
    mapGet (mapDelete m k) k' = if k' = k then none else mapGet m k' := by
  induction m with
  | nil =>
    by_cases h : k' = k <;> simp [mapDelete, mapGet, h]
  | cons kv rest ih =>
    obtain ⟨k0, v0⟩ := kv
    by_cases h0 : k0 = k
    · subst h0
      have hstep : mapDelete ((k0, v0) :: rest) k0 = mapDelete rest k0 := by
        simp [mapDelete]
      rw [hstep, ih]
      by_cases h1 : k' = k0
      · rw [if_pos h1, if_pos h1]
      · rw [if_neg h1, if_neg h1]
        exact (if_neg (fun hh => h1 hh.symm)).symm
    · have hstep : mapDelete ((k0, v0) :: rest) k = (k0, v0) :: mapDelete rest k := by
        simp [mapDelete, h0]
      rw [hstep]
      unfold mapGet
      by_cases h1 : k0 = k'
      · have hne : ¬ k' = k := fun hh => h0 (h1.trans hh)
        rw [if_pos h1, if_neg hne, if_pos h1]
      · by_cases h2 : k' = k
        · rw [if_neg h1, ih, if_pos h2, if_pos h2]
        · rw [if_neg h1, ih, if_neg h2, if_neg h2, if_neg h1]

theorem approvalStep_preserves_noNft (wallet : String) (oneYear : Nat)
    (m : List (String × Intent)) (tx : CachedTx) (c op : String)
    (hinv : noNftIntent m c op)
    (hnot : ¬(tx.fromAddr.toLower = wallet.toLower ∧ tx.toAddr = c
              ∧ tx.parsed = some (.setApprovalForAllCall op true))) :
    noNftIntent (approvalStep wallet oneYear m tx) c op := by
  unfold approvalStep
  by_cases hfrom : tx.fromAddr.toLower ≠ wallet.toLower
  · rw [if_pos hfrom]
    exact hinv
  · rw [if_neg hfrom]
    rw [not_not] at hfrom
    rcases hp : tx.parsed with _ | call
    · exact hinv
    · rcases call with ⟨sp, amt⟩ | ⟨op2, approved⟩ | ⟨sp, dl⟩ | _
      · show noNftIntent (mapSet m (intentKey tx.toAddr sp)
          { kind := .erc20, contractAddress := tx.toAddr, counterparty := sp }) c op
        intro e he
        rw [mapGet_mapSet] at he
        split at he
        · cases he
          intro hc
          cases hc.1
        · exact hinv e he
      · show noNftIntent (if approved = true then
            mapSet m (intentKey tx.toAddr op2)
              { kind := .nft, contractAddress := tx.toAddr, counterparty := op2 }
          else mapDelete m (intentKey tx.toAddr op2)) c op
        by_cases happ : approved = true
        · subst happ
          rw [if_pos rfl]
          intro e he
          rw [mapGet_mapSet] at he
          split at he
          · cases he
            intro hc
            refine hnot ⟨hfrom, hc.2.1, ?_⟩
            rw [hp, show op2 = op from hc.2.2]
          · exact hinv e he
        · rw [if_neg (by simpa using happ)]
          intro e he
          rw [mapGet_mapDelete] at he
          split at he
          · cases he
          · exact hinv e he
      · show noNftIntent (if oneYear < dl then
            mapSet m (intentKey tx.toAddr sp)
              { kind := .permit, contractAddress := tx.toAddr, counterparty := sp }
          else m) c op
        by_cases hdl : oneYear < dl
        · rw [if_pos hdl]
          intro e he
          rw [mapGet_mapSet] at he
          split at he
          · cases he
            intro hc
            cases hc.1
          · exact hinv e he
        · rw [if_neg hdl]
          exact hinv
      · show noNftIntent (mapSet m (intentKey tx.toAddr tx.toAddr)
          { kind := .permit2, contractAddress := tx.toAddr, counterparty := tx.toAddr }) c op
        intro e he
        rw [mapGet_mapSet] at he
        split at he
        · cases he
          intro hc
          cases hc.1
        · exact hinv e he

/-- Claim C8: when a wallet-sent setApprovalForAll(op, true) on contract
c is followed later in the cached list by a wallet-sent
setApprovalForAll(op, false) on c, and no wallet-sent re-grant for the
same pair comes after that false (last-writer-wins), the reconstructed
intent map holds no surviving NFT approval for the pair (c, op). -/
theorem nft_revoke_last_writer_wins (wallet : String) (oneYear : Nat)
    (pre post : List CachedTx) (txRevoke : CachedTx) (c op : String)
    (hgrant : ∃ tx ∈ pre, tx.fromAddr.toLower = wallet.toLower ∧ tx.toAddr = c
        ∧ tx.parsed = some (.setApprovalForAllCall op true))
    (hfrom : txRevoke.fromAddr.toLower = wallet.toLower)
    (hto : txRevoke.toAddr = c)
    (hparsed : txRevoke.parsed = some (.setApprovalForAllCall op false))
    (hlater : ∀ tx ∈ post, ¬(tx.fromAddr.toLower = wallet.toLower ∧ tx.toAddr = c
        ∧ tx.parsed = some (.setApprovalForAllCall op true))) :
    noNftIntent (buildIntentMap wallet oneYear (pre ++ txRevoke :: post)) c op := by
  unfold buildIntentMap
  rw [List.foldl_append, List.foldl_cons]
  have hafter : noNftIntent
      (approvalStep wallet oneYear
        (List.foldl (approvalStep wallet oneYear) [] pre) txRevoke) c op := by
    unfold approvalStep
    rw [if_neg (by rw [hfrom]; exact fun hh => hh rfl)]
    rw [hparsed]
    intro e he
    have he2 : mapGet (mapDelete
        (List.foldl (approvalStep wallet oneYear) [] pre)
        (intentKey txRevoke.toAddr op)) (intentKey c op) = some e := he
    rw [hto, mapGet_mapDelete, if_pos rfl] at he2
    cases he2
  generalize hM : approvalStep wallet oneYear
      (List.foldl (approvalStep wallet oneYear) [] pre) txRevoke = M at hafter
  clear hM hgrant hfrom hto hparsed
  induction post generalizing M with
  | nil => exact hafter
  | cons tx rest ih =>
    rw [List.foldl_cons]
    exact ih (fun t ht => hlater t (List.mem_cons_of_mem tx ht))
      (approvalStep wallet oneYear M tx)
      (approvalStep_preserves_noNft wallet oneYear M tx c op hafter
        (hlater tx (List.mem_cons_self tx rest)))

/-- Witness for the C8 theorem at a concrete grant-then-revoke list. -/
theorem nft_revoke_last_writer_wins_witness :
    noNftIntent
      (buildIntentMap "0xW" 0
        [{ fromAddr := "0xW", toAddr := "0xC",
           parsed := some (.setApprovalForAllCall "0xOP" true) },
         { fromAddr := "0xW", toAddr := "0xC",
           parsed := some (.setApprovalForAllCall "0xOP" false) }])
      "0xC" "0xOP" :=
  nft_revoke_last_writer_wins "0xW" 0
    [{ fromAddr := "0xW", toAddr := "0xC",
       parsed := some (.setApprovalForAllCall "0xOP" true) }]
    []
    { fromAddr := "0xW", toAddr := "0xC",
      parsed := some (.setApprovalForAllCall "0xOP" false) }
    "0xC" "0xOP"
    ⟨{ fromAddr := "0xW", toAddr := "0xC",
       parsed := some (.setApprovalForAllCall "0xOP" true) },
     List.mem_cons_self _ _, rfl, rfl, rfl⟩
    rfl rfl rfl
    (by intro tx ht; cases ht)

/-! ## On-chain read absorption (blockchain.service.js) and the
unverified-bytecode scan (contract.worker.js lines 144-156) -/

/-- getAllowance (blockchain.service.js lines 76-87): a failed read is
absorbed as allowance 0. -/
def getAllowanceResult (read : Except String Nat) : Nat :=
  match read with
  | .ok v => v
  | .error _ => 0

/-- isApprovedForAll (lines 186-196): a failed read is absorbed as
false. -/
def isApprovedForAllResult (read : Except String Bool) : Bool :=
  match read with
  | .ok b => b
  | .error _ => false

/-- getContractName (lines 308-323): a failed or timed-out read is
absorbed as none. -/
def getContractNameResult (read : Except String String) : Option String :=
  match read with
  | .ok n => some n
  | .error _ => none

/-- getCode (lines 149-157): a failed read is absorbed as null. -/
def getCodeResult (read : Except String String) : Option String :=
  match read with
  | .ok code => some code
  | .error _ => none

/-- The HIGH risky-signature selectors (contract.worker.js lines
35-44). -/
def RISKY_SIGNATURES_HIGH : List (String × String) :=
  [("delegatecall(bytes)", "0x592ac5a6"),
   ("upgradeTo(address)", "0x3659cfe6"),
   ("upgradeToAndCall(address,bytes)", "0x4f1ef286"),
   ("setOwner(address)", "0x13af4035"),
   ("kill()", "0xc01a7570"),
   ("destroy()", "0x83197ef0"),
   ("rug()", "0x93252358"),
   ("exit()", "0xe9b28907")]

/-- The MEDIUM risky-signature selectors (lines 45-51). -/
def RISKY_SIGNATURES_MEDIUM : List (String × String) :=
  [("setApprovalForAll(address,bool)", "0xa22cb465"),
   ("approve(address,uint256)", "0x095ea7b3"),
   ("transferFrom(address,address,uint256)", "0x23b872dd"),
   ("multicall(bytes[])", "0xac9650d8"),
   ("emergencyWithdraw()", "0xbb295b77")]

/-- The LOW risky-signature selectors (lines 52-57). -/
def RISKY_SIGNATURES_LOW : List (String × String) :=
  [("mint(address,uint256)", "0x40c10f19"),
   ("burn(address,uint256)", "0x9dc29fac"),
   ("pause()", "0x8456cb59"),
   ("unpause()", "0x3f4ba83a")]

/-- The per-level found-risk lists of the unverified branch. -/
structure FoundRisks where
  high : List String
  medium : List String
  low : List String
deriving DecidableEq, Repr

/-- bytecode.includes(selector without its 0x prefix). -/
def selectorHit (bytecode : String) (selector : String) : Bool :=
  listContains (selector.toList.drop 2) bytecode.toList

/-- The signature scan of the unverified branch (lines 148-155) on an
actual bytecode string. -/
def scanBytecode (bytecode : String) : FoundRisks :=
  { high := (RISKY_SIGNATURES_HIGH.filter (fun p => selectorHit bytecode p.2)).map
      (fun p => p.1),
    medium := (RISKY_SIGNATURES_MEDIUM.filter (fun p => selectorHit bytecode p.2)).map
      (fun p => p.1),
    low := (RISKY_SIGNATURES_LOW.filter (fun p => selectorHit bytecode p.2)).map
      (fun p => p.1) }

/-- The unverified-contract branch applied to the value getCode
returned: the JavaScript dereferences contractBytecode with .includes,
so a null bytecode (an absorbed read failure) raises a TypeError that
escapes to the job-level catch. -/
def unverifiedScanStep (contractBytecode : Option String) : Except String FoundRisks :=
  match contractBytecode with
  | some code => .ok (scanBytecode code)
  | none => .error "TypeError: Cannot read properties of null (reading includes)"

/-- Outcome of a job whose body may raise (workerRunner.js lines
17-24): an escaping error marks the job failed. -/
inductive JobOutcome
  | completedJob
  | failedJob
deriving DecidableEq, Repr

/-- The run loop of createWorker around one job body. -/
def runJob (work : Except String Unit) : JobOutcome :=
  match work with
  | .ok _ => .completedJob
  | .error _ => .failedJob

/-- Claim C9 (code bug): allowance, isApprovedForAll and name read
failures are absorbed as unknown values as claimed, and getCode absorbs
a failure as null - but the contract worker then dereferences the null
bytecode, so a bytecode read failure DOES abort the analyzer job: the
scan step raises and the runner marks the job failed. -/
theorem bytecode_read_failure_aborts_worker :
    getAllowanceResult (.error "rpc down") = 0
    ∧ isApprovedForAllResult (.error "rpc down") = false
    ∧ getContractNameResult (.error "rpc down") = none
    ∧ getCodeResult (.error "rpc down") = none
    ∧ unverifiedScanStep (getCodeResult (.error "rpc down"))
        = .error "TypeError: Cannot read properties of null (reading includes)"
    ∧ runJob (Except.map (fun _ => ()) (unverifiedScanStep (getCodeResult (.error "rpc down"))))
        = JobOutcome.failedJob :=
  ⟨rfl, rfl, rfl, rfl, rfl, rfl⟩

/-! ## parseTransactionInput (blockchain.service.js lines 264-276) -/

/-- A decoded function call as ethers returns it. -/
structure ParsedTx where
  name : String
  args : List String
deriving DecidableEq, Repr

/-- parseTransactionInput: inputs shorter than 10 characters (no full
4-byte selector) return null before decoding; a decoder exception
(ethers parseTransaction throws when the input does not match the
interface) is caught and returns null. decode stands for the fallible
iface.parseTransaction. -/
def parseTransactionInput (decode : String → Except String ParsedTx)
    (txInput : String) : Option ParsedTx :=
  if txInput.length < 10 then none
  else
    match decode txInput with
    | .ok v => some v
    | .error _ => none

/-- Claim C10: parseTransactionInput is total: every input shorter than
10 characters yields none, every input the decoder rejects yields none,
and a successful decode of a long-enough input is returned as some; no
exception escapes to the caller. -/
theorem parse_transaction_input_total (decode : String → Except String ParsedTx)
    (txInput : String) :
    (txInput.length < 10 → parseTransactionInput decode txInput = none)
    ∧ (∀ e : String, decode txInput = .error e →
        parseTransactionInput decode txInput = none)
    ∧ (∀ v : ParsedTx, 10 ≤ txInput.length → decode txInput = .ok v →
        parseTransactionInput decode txInput = some v) := by
  refine ⟨?_, ?_, ?_⟩
  · intro h
    unfold parseTransactionInput
    rw [if_pos h]
  · intro e he
    unfold parseTransactionInput
    by_cases hlen : txInput.length < 10
    · rw [if_pos hlen]
    · rw [if_neg hlen, he]
  · intro v hlen hv
    unfold parseTransactionInput
    rw [if_neg (by omega), hv]

/-- Witness for the C10 theorem at a short input and at a rejected
long input. -/
theorem parse_transaction_input_total_witness :
    parseTransactionInput (fun _ => .error "no matching function") "0x" = none
    ∧ parseTransactionInput (fun _ => .error "no matching function") "0xa22cb465ffff"
      = none :=
  ⟨(parse_transaction_input_total (fun _ => .error "no matching function") "0x").1
     (by decide),
   (parse_transaction_input_total (fun _ => .error "no matching function")
     "0xa22cb465ffff").2.1 "no matching function" rfl⟩

end Web3Safety
